import Mathlib

/-!
Verification of the `date-range-checker` library (src/src/index.ts and the
day-enumeration helper `findDateRangeEachDates` in src/util).

Dates are modelled at calendar-day granularity as integers: a JavaScript
`Date` value is represented by its day index (its `getTime()` value at the
resolution the library operates on).  `getTime()` comparison becomes integer
comparison and `setDate(getDate() ± 1)` becomes `± 1`.

The development has three layers:
 * a pure layer: the predicates and extraction functions on validated
   `DateRange` values (startDate ≤ endDate is a separate hypothesis, as the
   validation gate guarantees it at run time);
 * an `Except` layer modelling `checkDateRangeFormat` and the thrown
   `DateRangeCheckerError`: the raw argument of a public function may be
   absent, may have absent/null/non-Date fields, or may be inverted;
 * a heap layer modelling JavaScript `Date` objects as mutable cells, used to
   verify that the functions never mutate their input `Date` objects (the
   source always copies with `new Date(...)` before `setDate`).
-/

/-- A validated date range: `startDate`/`endDate` hold the day index of the
corresponding `Date` value (its `getTime()` at day granularity). -/
structure DateRange where
  startDate : Int
  endDate : Int
deriving DecidableEq, Repr

/-- The invariant the validation gate enforces: `startDate <= endDate`. -/
def DateRange.WellFormed (r : DateRange) : Prop :=
  r.startDate ≤ r.endDate

instance (r : DateRange) : Decidable r.WellFormed := by
  unfold DateRange.WellFormed; infer_instance

/-- Source function `isStartDateInRange` (src/src/index.ts:73-81):
`ref.startDate.getTime() >= comp.startDate.getTime() &&
 ref.startDate.getTime() <= comp.endDate.getTime()`. -/
def isStartDateInRange (referenceDateRange comparisonDateRange : DateRange) : Bool :=
  decide (referenceDateRange.startDate ≥ comparisonDateRange.startDate) &&
  decide (referenceDateRange.startDate ≤ comparisonDateRange.endDate)

/-- Source function `isEndDateInRange` (src/src/index.ts:104-112):
`ref.endDate.getTime() >= comp.startDate.getTime() &&
 ref.endDate.getTime() <= comp.endDate.getTime()`. -/
def isEndDateInRange (referenceDateRange comparisonDateRange : DateRange) : Bool :=
  decide (referenceDateRange.endDate ≥ comparisonDateRange.startDate) &&
  decide (referenceDateRange.endDate ≤ comparisonDateRange.endDate)

/-- Source function `isStartDateAndEndDateInRange` (src/src/index.ts:136-144):
conjunction of the two predicates above. -/
def isStartDateAndEndDateInRange (referenceDateRange comparisonDateRange : DateRange) : Bool :=
  isStartDateInRange referenceDateRange comparisonDateRange &&
  isEndDateInRange referenceDateRange comparisonDateRange

/-- Source function `isStartDateAndEndDateIncludeRange` (src/src/index.ts:172-180):
`ref.startDate <= comp.startDate && ref.endDate >= comp.endDate`. -/
def isStartDateAndEndDateIncludeRange (referenceDateRange comparisonDateRange : DateRange) : Bool :=
  decide (referenceDateRange.startDate ≤ comparisonDateRange.startDate) &&
  decide (referenceDateRange.endDate ≥ comparisonDateRange.endDate)

/-- Source function `isInRange` (src/src/index.ts:41-50): the three-way disjunction. -/
def isInRange (referenceDateRange comparisonDateRange : DateRange) : Bool :=
  isStartDateInRange referenceDateRange comparisonDateRange ||
  isEndDateInRange referenceDateRange comparisonDateRange ||
  isStartDateAndEndDateIncludeRange referenceDateRange comparisonDateRange

/-- The body of the while loop of `findDateRangeEachDates` (src/util, lines
341-351): `while (currentDate <= endDate) { push(copy of currentDate);
currentDate += 1 day }`.  The loop is structurally recursive on a fuel
argument; the guard `cur ≤ e` is the source's loop condition, so with enough
fuel the fuel never cuts the loop short. -/
def eachDatesLoop (cur e : Int) : Nat → List Int
  | 0 => []
  | n + 1 =>
    if cur ≤ e then cur :: eachDatesLoop (cur + 1) e n else []

/-- Source function `findDateRangeEachDates` (src/util): enumerate every day of the range,
ascending and inclusive.  `(e + 1 - s).toNat` is exactly the number of
iterations the source's while loop performs. -/
def findDateRangeEachDates (dateRange : DateRange) : List Int :=
  eachDatesLoop dateRange.startDate dateRange.endDate
    ((dateRange.endDate + 1 - dateRange.startDate).toNat)

/-- Source function `findOverlappingDates` (src/src/index.ts:211-225). -/
def findOverlappingDates (referenceDateRange comparisonDateRange : DateRange) : List Int :=
  if !(isInRange referenceDateRange comparisonDateRange) then []
  else
    let startDate :=
      if referenceDateRange.startDate > comparisonDateRange.startDate
      then referenceDateRange.startDate else comparisonDateRange.startDate
    let endDate :=
      if referenceDateRange.endDate < comparisonDateRange.endDate
      then referenceDateRange.endDate else comparisonDateRange.endDate
    findDateRangeEachDates ⟨startDate, endDate⟩

/-- Source function `findNonOverlappingDates` (src/src/index.ts:259-294).  In the source the
`secondEndDate` test compares `secondStartDate` before its `+ 1` day
adjustment; the `let`s below keep that evaluation order. -/
def findNonOverlappingDates (referenceDateRange comparisonDateRange : DateRange) : List Int :=
  if !(isInRange referenceDateRange comparisonDateRange) then
    findDateRangeEachDates
      ⟨referenceDateRange.startDate, referenceDateRange.endDate⟩ ++
    findDateRangeEachDates
      ⟨comparisonDateRange.startDate, comparisonDateRange.endDate⟩
  else
    let firstStartDate :=
      if referenceDateRange.startDate < comparisonDateRange.startDate
      then referenceDateRange.startDate else comparisonDateRange.startDate
    let firstEndDate :=
      (if firstStartDate = referenceDateRange.startDate
       then comparisonDateRange.startDate else referenceDateRange.startDate) - 1
    let secondStartDate0 :=
      if referenceDateRange.endDate < comparisonDateRange.endDate
      then referenceDateRange.endDate else comparisonDateRange.endDate
    let secondEndDate :=
      if secondStartDate0 = referenceDateRange.endDate
      then comparisonDateRange.endDate else referenceDateRange.endDate
    let secondStartDate := secondStartDate0 + 1
    findDateRangeEachDates ⟨firstStartDate, firstEndDate⟩ ++
    findDateRangeEachDates ⟨secondStartDate, secondEndDate⟩

/-! ### Basic lemmas about the day-enumeration loop -/

theorem eachDatesLoop_mem {n : Nat} {cur e : Int}
    (hn : (e + 1 - cur).toNat ≤ n) (x : Int) :
    x ∈ eachDatesLoop cur e n ↔ cur ≤ x ∧ x ≤ e := by
  induction n generalizing cur with
  | zero =>
    simp only [eachDatesLoop, List.not_mem_nil, false_iff]
    omega
  | succ n ih =>
    by_cases h : cur ≤ e
    · simp only [eachDatesLoop, if_pos h, List.mem_cons]
      rw [ih (by omega)]
      omega
    · simp only [eachDatesLoop, if_neg h, List.not_mem_nil, false_iff]
      omega

theorem eachDatesLoop_count {n : Nat} {cur e : Int}
    (hn : (e + 1 - cur).toNat ≤ n) (x : Int) :
    (eachDatesLoop cur e n).count x = if cur ≤ x ∧ x ≤ e then 1 else 0 := by
  induction n generalizing cur with
  | zero =>
    simp only [eachDatesLoop, List.count_nil]
    split
    · omega
    · rfl
  | succ n ih =>
    by_cases h : cur ≤ e
    · simp only [eachDatesLoop, if_pos h, List.count_cons, beq_iff_eq]
      rw [ih (by omega)]
      split_ifs <;> omega
    · simp only [eachDatesLoop, if_neg h, List.count_nil]
      split
      · omega
      · rfl

theorem eachDatesLoop_length {n : Nat} {cur e : Int}
    (hn : (e + 1 - cur).toNat ≤ n) (hle : cur ≤ e) :
    (eachDatesLoop cur e n).length = (e - cur).toNat + 1 := by
  induction n generalizing cur with
  | zero => omega
  | succ n ih =>
    simp only [eachDatesLoop, if_pos hle, List.length_cons]
    by_cases h : cur + 1 ≤ e
    · rw [ih (by omega) h]
      omega
    · have : ¬ (cur + 1 ≤ e) := h
      have he : (eachDatesLoop (cur + 1) e n) = [] := by
        cases n with
        | zero => rfl
        | succ m => simp only [eachDatesLoop, if_neg this]
      rw [he]
      simp only [List.length_nil]
      omega

theorem eachDatesLoop_nil {n : Nat} {cur e : Int} (h : ¬ cur ≤ e) :
    eachDatesLoop cur e n = [] := by
  cases n with
  | zero => rfl
  | succ m => simp only [eachDatesLoop, if_neg h]

theorem eachDatesLoop_pairwise {n : Nat} {cur e : Int}
    (hn : (e + 1 - cur).toNat ≤ n) :
    (eachDatesLoop cur e n).Pairwise (· < ·) := by
  induction n generalizing cur with
  | zero => exact List.Pairwise.nil
  | succ n ih =>
    by_cases h : cur ≤ e
    · simp only [eachDatesLoop, if_pos h]
      refine List.pairwise_cons.mpr ⟨fun y hy => ?_, ih (by omega)⟩
      have := (eachDatesLoop_mem (by omega) y).mp hy
      omega
    · rw [eachDatesLoop_nil h]
      exact List.Pairwise.nil

/-! ### Lemmas at the `findDateRangeEachDates` level -/

theorem mem_findDateRangeEachDates (r : DateRange) (x : Int) :
    x ∈ findDateRangeEachDates r ↔ r.startDate ≤ x ∧ x ≤ r.endDate :=
  eachDatesLoop_mem (Nat.le_refl _) x

theorem count_findDateRangeEachDates (r : DateRange) (x : Int) :
    (findDateRangeEachDates r).count x =
      if r.startDate ≤ x ∧ x ≤ r.endDate then 1 else 0 :=
  eachDatesLoop_count (Nat.le_refl _) x

theorem length_findDateRangeEachDates (r : DateRange) (h : r.startDate ≤ r.endDate) :
    (findDateRangeEachDates r).length = (r.endDate - r.startDate).toNat + 1 :=
  eachDatesLoop_length (Nat.le_refl _) h

theorem pairwise_findDateRangeEachDates (r : DateRange) :
    (findDateRangeEachDates r).Pairwise (· < ·) :=
  eachDatesLoop_pairwise (Nat.le_refl _)

theorem nodup_findDateRangeEachDates (r : DateRange) :
    (findDateRangeEachDates r).Nodup :=
  (pairwise_findDateRangeEachDates r).imp ne_of_lt

/-! ### The master overlap predicate as an interval test -/

theorem isInRange_iff_overlap (r c : DateRange)
    (hr : r.WellFormed) (hc : c.WellFormed) :
    isInRange r c = true ↔
      r.startDate ≤ c.endDate ∧ c.startDate ≤ r.endDate := by
  simp only [isInRange, isStartDateInRange, isEndDateInRange,
    isStartDateAndEndDateIncludeRange, Bool.or_eq_true, Bool.and_eq_true,
    decide_eq_true_eq, ge_iff_le]
  unfold DateRange.WellFormed at hr hc
  omega

theorem isInRange_eq_false_iff (r c : DateRange)
    (hr : r.WellFormed) (hc : c.WellFormed) :
    isInRange r c = false ↔
      ¬ (r.startDate ≤ c.endDate ∧ c.startDate ≤ r.endDate) := by
  rw [← isInRange_iff_overlap r c hr hc]
  cases isInRange r c <;> simp

/-! ### The raw input layer: `checkDateRangeFormat` and the thrown error

A raw `startDate`/`endDate` field of an argument, as JavaScript sees it,
is either `undefined`, `null`, some non-`Date` value, or a `Date` carrying a
time value. A raw argument itself may also be absent (`undefined`/`null`),
modelled by `Option`. A thrown `DateRangeCheckerError` becomes
`Except.error` carrying the message. -/

inductive JSDateField where
  | undef : JSDateField
  | null : JSDateField
  | notDate : JSDateField
  | date (time : Int) : JSDateField
deriving DecidableEq, Repr

/-- A raw (unvalidated) argument record: both fields present but of any
JavaScript shape. -/
structure RawDateRange where
  startDate : JSDateField
  endDate : JSDateField
deriving DecidableEq, Repr

def JSDateField.isUndef : JSDateField → Bool
  | .undef => true
  | _ => false

def JSDateField.isNull : JSDateField → Bool
  | .null => true
  | _ => false

def JSDateField.isDate : JSDateField → Bool
  | .date _ => true
  | _ => false

/-- Value of `getTime()` for a field that the validation gate has established to be a
`Date`. The default for the other constructors is never reached after
validation. -/
def JSDateField.time : JSDateField → Int
  | .date t => t
  | _ => 0

def msgMustBeDefined : String :=
  "dateRange must be defined and contain both startDate and endDate."

def msgCannotBeNull : String :=
  "Both startDate and endDate cannot be null."

def msgMustBeDate : String :=
  "Both startDate and endDate must be instances of the Date class."

def msgStartAfterEnd : String :=
  "startDate cannot be after endDate."

/-- Source function `checkDateRangeFormat` (src/src/index.ts:311-327): the four causes in
source order, each with its own message. -/
def checkDateRangeFormat (dateRange : Option RawDateRange) : Except String Unit :=
  match dateRange with
  | none => .error msgMustBeDefined
  | some r =>
    if r.startDate.isUndef || r.endDate.isUndef then .error msgMustBeDefined
    else if r.startDate.isNull || r.endDate.isNull then .error msgCannotBeNull
    else if !(r.startDate.isDate && r.endDate.isDate) then .error msgMustBeDate
    else if r.startDate.time > r.endDate.time then .error msgStartAfterEnd
    else .ok ()

/-- The extraction a public function performs after validation succeeds:
read the two `getTime()` values of a validated argument. -/
def toDateRange (dateRange : Option RawDateRange) : DateRange :=
  match dateRange with
  | none => ⟨0, 0⟩
  | some r => ⟨r.startDate.time, r.endDate.time⟩

/-- A raw argument that passes `checkDateRangeFormat`: both fields are
`Date`s and they are correctly ordered. -/
def ValidRaw (dateRange : Option RawDateRange) : Prop :=
  match dateRange with
  | some ⟨.date s, .date e⟩ => s ≤ e
  | _ => False

instance (dateRange : Option RawDateRange) : Decidable (ValidRaw dateRange) := by
  unfold ValidRaw
  rcases dateRange with _ | ⟨_ | _ | _ | s, _ | _ | _ | e⟩ <;> infer_instance

/-- The common prologue of every public function (e.g. src/src/index.ts:42-43):
validate the reference, then the comparison, then produce the result. -/
def validateThen {α : Type} (referenceDateRange comparisonDateRange : Option RawDateRange)
    (result : α) : Except String α :=
  match checkDateRangeFormat referenceDateRange with
  | .error m => .error m
  | .ok _ =>
    match checkDateRangeFormat comparisonDateRange with
    | .error m => .error m
    | .ok _ => .ok result

/-- The exported `isInRange` on raw arguments, as exported. After both checks pass, the
recursive re-validation inside the sub-predicates cannot throw, so the net
result is the pure predicate on the extracted time values. -/
def isInRangeE (referenceDateRange comparisonDateRange : Option RawDateRange) :
    Except String Bool :=
  validateThen referenceDateRange comparisonDateRange
    (isInRange (toDateRange referenceDateRange) (toDateRange comparisonDateRange))

def isStartDateInRangeE (referenceDateRange comparisonDateRange : Option RawDateRange) :
    Except String Bool :=
  validateThen referenceDateRange comparisonDateRange
    (isStartDateInRange (toDateRange referenceDateRange) (toDateRange comparisonDateRange))

def isEndDateInRangeE (referenceDateRange comparisonDateRange : Option RawDateRange) :
    Except String Bool :=
  validateThen referenceDateRange comparisonDateRange
    (isEndDateInRange (toDateRange referenceDateRange) (toDateRange comparisonDateRange))

def isStartDateAndEndDateInRangeE (referenceDateRange comparisonDateRange : Option RawDateRange) :
    Except String Bool :=
  validateThen referenceDateRange comparisonDateRange
    (isStartDateAndEndDateInRange (toDateRange referenceDateRange)
      (toDateRange comparisonDateRange))

def isStartDateAndEndDateIncludeRangeE
    (referenceDateRange comparisonDateRange : Option RawDateRange) :
    Except String Bool :=
  validateThen referenceDateRange comparisonDateRange
    (isStartDateAndEndDateIncludeRange (toDateRange referenceDateRange)
      (toDateRange comparisonDateRange))

def findOverlappingDatesE (referenceDateRange comparisonDateRange : Option RawDateRange) :
    Except String (List Int) :=
  validateThen referenceDateRange comparisonDateRange
    (findOverlappingDates (toDateRange referenceDateRange)
      (toDateRange comparisonDateRange))

def findNonOverlappingDatesE (referenceDateRange comparisonDateRange : Option RawDateRange) :
    Except String (List Int) :=
  validateThen referenceDateRange comparisonDateRange
    (findNonOverlappingDates (toDateRange referenceDateRange)
      (toDateRange comparisonDateRange))

/-! ### Lemmas about the validation gate -/

theorem checkDateRangeFormat_ok_iff (dateRange : Option RawDateRange) :
    checkDateRangeFormat dateRange = .ok () ↔ ValidRaw dateRange := by
  rcases dateRange with _ | ⟨s, e⟩
  · simp [checkDateRangeFormat, ValidRaw]
  · rcases s with _ | _ | _ | st <;> rcases e with _ | _ | _ | et <;>
      simp [checkDateRangeFormat, ValidRaw, JSDateField.isUndef, JSDateField.isNull,
        JSDateField.isDate, JSDateField.time] <;> omega

theorem validateThen_ok_iff {α : Type} (a b : Option RawDateRange) (v : α) :
    (∃ w, validateThen a b v = .ok w) ↔ ValidRaw a ∧ ValidRaw b := by
  unfold validateThen
  rcases ha : checkDateRangeFormat a with m | u
  · simp only [ha]
    constructor
    · rintro ⟨w, hw⟩
      cases hw
    · rintro ⟨hva, _⟩
      rw [← checkDateRangeFormat_ok_iff] at hva
      rw [ha] at hva
      cases hva
  · cases u
    rcases hb : checkDateRangeFormat b with m | u
    · simp only [hb]
      constructor
      · rintro ⟨w, hw⟩
        cases hw
      · rintro ⟨_, hvb⟩
        rw [← checkDateRangeFormat_ok_iff] at hvb
        rw [hb] at hvb
        cases hvb
    · cases u
      simp only [hb]
      constructor
      · intro _
        constructor
        · exact (checkDateRangeFormat_ok_iff a).mp ha
        · exact (checkDateRangeFormat_ok_iff b).mp hb
      · intro _
        exact ⟨v, rfl⟩

theorem validateThen_ok_of_valid {α : Type} (a b : Option RawDateRange) (v : α)
    (hva : ValidRaw a) (hvb : ValidRaw b) :
    validateThen a b v = .ok v := by
  unfold validateThen
  rw [← checkDateRangeFormat_ok_iff] at hva hvb
  rw [hva, hvb]

theorem validateThen_error {α : Type} (a b : Option RawDateRange) (v : α) (m : String)
    (h : validateThen a b v = .error m) :
    checkDateRangeFormat a = .error m ∨
      (checkDateRangeFormat a = .ok () ∧ checkDateRangeFormat b = .error m) := by
  unfold validateThen at h
  rcases ha : checkDateRangeFormat a with ma | u
  · rw [ha] at h
    cases h
    exact Or.inl rfl
  · cases u
    rw [ha] at h
    rcases hb : checkDateRangeFormat b with mb | u
    · rw [hb] at h
      cases h
      exact Or.inr ⟨rfl, rfl⟩
    · cases u
      rw [hb] at h
      cases h

/-! ### The heap layer: JavaScript `Date` objects as mutable cells

A `Date` object is a mutable cell holding a time value; a variable holds an
address.  `new Date(d)` allocates a fresh cell with `d`'s current value;
`d.setDate(d.getDate() ± 1)` writes the adjusted value back into `d`'s own
cell; `d.getTime()` reads the cell.  Allocation appends to the heap, so an
address allocated during a call is `≥` the length the heap had at entry, and
a caller's `Date` objects live at addresses below that length. -/

abbrev DateHeap := List Int

def DateHeap.read (h : DateHeap) (a : Nat) : Int :=
  List.getD h a 0

def DateHeap.write (h : DateHeap) (a : Nat) (v : Int) : DateHeap :=
  List.set h a v

/-- Allocate a fresh `Date` cell: the new address and the extended heap. -/
def DateHeap.alloc (h : DateHeap) (v : Int) : DateHeap × Nat :=
  (h ++ [v], List.length h)

def DateHeap.size (h : DateHeap) : Nat :=
  List.length h

/-- The loop of `findDateRangeEachDates` on the heap: each iteration reads
`currentDate`, pushes `new Date(currentDate)` (a fresh cell), and advances
`currentDate` in place via `setDate(getDate() + 1)`. -/
def eachDatesLoopH : Nat → DateHeap → Nat → Nat → DateHeap × List Nat
  | 0, h, _, _ => (h, [])
  | n + 1, h, cur, endA =>
    if DateHeap.read h cur ≤ DateHeap.read h endA then
      let p := DateHeap.alloc h (DateHeap.read h cur)
      let h2 := DateHeap.write p.1 cur (DateHeap.read p.1 cur + 1)
      let q := eachDatesLoopH n h2 cur endA
      (q.1, p.2 :: q.2)
    else (h, [])

/-- Heap version of `findDateRangeEachDates`: on the heap (src/util): `let currentDate =
new Date(dateRange.startDate)` then the while loop.  The fuel is the
iteration count of the source loop. -/
def findDateRangeEachDatesH (h : DateHeap) (startA endA : Nat) : DateHeap × List Nat :=
  let p := DateHeap.alloc h (DateHeap.read h startA)
  eachDatesLoopH ((DateHeap.read h endA + 1 - DateHeap.read h startA).toNat) p.1 p.2 endA

/-- The two ranges a heap-level call receives: four addresses of `Date`
cells (reference start/end, comparison start/end). -/
def readRange (h : DateHeap) (sA eA : Nat) : DateRange :=
  ⟨DateHeap.read h sA, DateHeap.read h eA⟩

/-- Heap version of `isInRange`: on the heap: pure reads, no allocation, no write. -/
def isInRangeH (h : DateHeap) (rsA reA csA ceA : Nat) : DateHeap × Bool :=
  (h, isInRange (readRange h rsA reA) (readRange h csA ceA))

/-- Heap version of `findOverlappingDates`: on the heap (src/src/index.ts:211-225): the
`startDate`/`endDate` locals are `new Date(...)` copies of whichever bound
wins the comparison. -/
def findOverlappingDatesH (h : DateHeap) (rsA reA csA ceA : Nat) : DateHeap × List Nat :=
  if !(isInRange (readRange h rsA reA) (readRange h csA ceA)) then (h, [])
  else
    let p1 := DateHeap.alloc h
      (if DateHeap.read h rsA > DateHeap.read h csA
       then DateHeap.read h rsA else DateHeap.read h csA)
    let p2 := DateHeap.alloc p1.1
      (if DateHeap.read p1.1 reA < DateHeap.read p1.1 ceA
       then DateHeap.read p1.1 reA else DateHeap.read p1.1 ceA)
    findDateRangeEachDatesH p2.1 p1.2 p2.2

/-- Heap version of `findNonOverlappingDates`: on the heap (src/src/index.ts:259-294).  In the
non-intersecting branch the source passes the caller's own `Date` objects to
`findDateRangeEachDates`; in the intersecting branch all four block bounds
are `new Date(...)` copies and the `setDate` adjustments write only into
those copies. -/
def findNonOverlappingDatesH (h : DateHeap) (rsA reA csA ceA : Nat) : DateHeap × List Nat :=
  if !(isInRange (readRange h rsA reA) (readRange h csA ceA)) then
    let q1 := findDateRangeEachDatesH h rsA reA
    let q2 := findDateRangeEachDatesH q1.1 csA ceA
    (q2.1, q1.2 ++ q2.2)
  else
    let p1 := DateHeap.alloc h
      (if DateHeap.read h rsA < DateHeap.read h csA
       then DateHeap.read h rsA else DateHeap.read h csA)
    let h1 := p1.1
    let fsA := p1.2
    let p2 := DateHeap.alloc h1
      (if DateHeap.read h1 fsA = DateHeap.read h1 rsA
       then DateHeap.read h1 csA else DateHeap.read h1 rsA)
    let h2 := p2.1
    let feA := p2.2
    let h3 := DateHeap.write h2 feA (DateHeap.read h2 feA - 1)
    let p3 := DateHeap.alloc h3
      (if DateHeap.read h3 reA < DateHeap.read h3 ceA
       then DateHeap.read h3 reA else DateHeap.read h3 ceA)
    let h4 := p3.1
    let ssA := p3.2
    let p4 := DateHeap.alloc h4
      (if DateHeap.read h4 ssA = DateHeap.read h4 reA
       then DateHeap.read h4 ceA else DateHeap.read h4 reA)
    let h5 := p4.1
    let seA := p4.2
    let h6 := DateHeap.write h5 ssA (DateHeap.read h5 ssA + 1)
    let q1 := findDateRangeEachDatesH h6 fsA feA
    let q2 := findDateRangeEachDatesH q1.1 ssA seA
    (q2.1, q1.2 ++ q2.2)

/-! ### Heap frame lemmas -/

theorem DateHeap.read_alloc (h : DateHeap) (v : Int) (a : Nat)
    (ha : a < DateHeap.size h) :
    DateHeap.read (DateHeap.alloc h v).1 a = DateHeap.read h a := by
  show List.getD (h ++ [v]) a 0 = List.getD h a 0
  rw [List.getD_eq_getElem?_getD, List.getD_eq_getElem?_getD,
    List.getElem?_append_left ha]

theorem DateHeap.read_write_ne (h : DateHeap) (b : Nat) (v : Int) (a : Nat)
    (hab : a ≠ b) :
    DateHeap.read (DateHeap.write h b v) a = DateHeap.read h a := by
  show List.getD (List.set h b v) a 0 = List.getD h a 0
  rw [List.getD_eq_getElem?_getD, List.getD_eq_getElem?_getD,
    List.getElem?_set_ne (fun hc => hab hc.symm)]

theorem DateHeap.size_alloc (h : DateHeap) (v : Int) :
    DateHeap.size (DateHeap.alloc h v).1 = DateHeap.size h + 1 := by
  show List.length (h ++ [v]) = List.length h + 1
  rw [List.length_append]
  rfl

theorem DateHeap.size_write (h : DateHeap) (b : Nat) (v : Int) :
    DateHeap.size (DateHeap.write h b v) = DateHeap.size h := by
  show List.length (List.set h b v) = List.length h
  rw [List.length_set]

theorem eachDatesLoopH_frame (n : Nat) (h : DateHeap) (cur endA : Nat) :
    DateHeap.size h ≤ DateHeap.size (eachDatesLoopH n h cur endA).1 ∧
    ∀ a, a < DateHeap.size h → a ≠ cur →
      DateHeap.read (eachDatesLoopH n h cur endA).1 a = DateHeap.read h a := by
  induction n generalizing h with
  | zero =>
    constructor
    · exact Nat.le_refl _
    · intro a _ _
      trivial
  | succ n ih =>
    by_cases hc : DateHeap.read h cur ≤ DateHeap.read h endA
    · simp only [eachDatesLoopH, if_pos hc]
      have hsz1 := DateHeap.size_alloc h (DateHeap.read h cur)
      have hsz2 := DateHeap.size_write (DateHeap.alloc h (DateHeap.read h cur)).1 cur
        (DateHeap.read (DateHeap.alloc h (DateHeap.read h cur)).1 cur + 1)
      obtain ⟨ihsz, ihread⟩ := ih (DateHeap.write (DateHeap.alloc h (DateHeap.read h cur)).1 cur
        (DateHeap.read (DateHeap.alloc h (DateHeap.read h cur)).1 cur + 1))
      constructor
      · omega
      · intro a ha hane
        rw [ihread a (by omega) hane]
        rw [DateHeap.read_write_ne _ _ _ _ hane]
        rw [DateHeap.read_alloc _ _ _ ha]
    · simp only [eachDatesLoopH, if_neg hc]
      constructor
      · exact Nat.le_refl _
      · intro a _ _
        trivial

theorem findDateRangeEachDatesH_frame (h : DateHeap) (startA endA : Nat) :
    DateHeap.size h ≤ DateHeap.size (findDateRangeEachDatesH h startA endA).1 ∧
    ∀ a, a < DateHeap.size h →
      DateHeap.read (findDateRangeEachDatesH h startA endA).1 a = DateHeap.read h a := by
  simp only [findDateRangeEachDatesH]
  obtain ⟨hsz, hread⟩ := eachDatesLoopH_frame
    ((DateHeap.read h endA + 1 - DateHeap.read h startA).toNat)
    (DateHeap.alloc h (DateHeap.read h startA)).1
    (DateHeap.alloc h (DateHeap.read h startA)).2 endA
  have hsz1 := DateHeap.size_alloc h (DateHeap.read h startA)
  constructor
  · omega
  · intro a ha
    have hcur : (DateHeap.alloc h (DateHeap.read h startA)).2 = DateHeap.size h := rfl
    rw [hread a (by omega) (by omega)]
    exact DateHeap.read_alloc _ _ _ ha

/-! ### Structure of the extraction functions -/

theorem findDateRangeEachDates_nil (r : DateRange) (h : r.endDate < r.startDate) :
    findDateRangeEachDates r = [] := by
  have hz : (r.endDate + 1 - r.startDate).toNat = 0 := by omega
  rw [findDateRangeEachDates, hz]
  rfl

theorem findDateRangeEachDates_single (a : Int) :
    findDateRangeEachDates ⟨a, a⟩ = [a] := by
  have hz : ((a : Int) + 1 - a).toNat = 1 := by omega
  rw [findDateRangeEachDates]
  simp only [hz, eachDatesLoop, if_pos (le_refl a)]

theorem findOverlappingDates_of_inRange (r c : DateRange)
    (h : isInRange r c = true) :
    findOverlappingDates r c =
      findDateRangeEachDates
        ⟨max r.startDate c.startDate, min r.endDate c.endDate⟩ := by
  have hnot : (!(isInRange r c)) = false := by rw [h]; rfl
  simp only [findOverlappingDates, hnot, Bool.false_eq_true, if_false]
  have e1 : (if r.startDate > c.startDate then r.startDate else c.startDate) =
      max r.startDate c.startDate := by
    rw [max_def]; split_ifs <;> omega
  have e2 : (if r.endDate < c.endDate then r.endDate else c.endDate) =
      min r.endDate c.endDate := by
    rw [min_def]; split_ifs <;> omega
  rw [e1, e2]

theorem findOverlappingDates_of_notInRange (r c : DateRange)
    (h : isInRange r c = false) :
    findOverlappingDates r c = [] := by
  have hnot : (!(isInRange r c)) = true := by rw [h]; rfl
  simp only [findOverlappingDates, hnot, if_true]

theorem findNonOverlappingDates_of_notInRange (r c : DateRange)
    (h : isInRange r c = false) :
    findNonOverlappingDates r c =
      findDateRangeEachDates r ++ findDateRangeEachDates c := by
  have hnot : (!(isInRange r c)) = true := by rw [h]; rfl
  simp only [findNonOverlappingDates, hnot, if_true]

theorem findNonOverlappingDates_of_inRange (r c : DateRange)
    (h : isInRange r c = true) :
    findNonOverlappingDates r c =
      findDateRangeEachDates
        ⟨min r.startDate c.startDate, max r.startDate c.startDate - 1⟩ ++
      findDateRangeEachDates
        ⟨min r.endDate c.endDate + 1, max r.endDate c.endDate⟩ := by
  have hnot : (!(isInRange r c)) = false := by rw [h]; rfl
  simp only [findNonOverlappingDates, hnot, Bool.false_eq_true, if_false]
  have e1 : (if r.startDate < c.startDate then r.startDate else c.startDate) =
      min r.startDate c.startDate := by
    rw [min_def]; split_ifs <;> omega
  have e2 : ((if (if r.startDate < c.startDate then r.startDate else c.startDate)
        = r.startDate then c.startDate else r.startDate) - 1) =
      max r.startDate c.startDate - 1 := by
    rw [max_def]; split_ifs <;> omega
  have e3 : ((if r.endDate < c.endDate then r.endDate else c.endDate) + 1) =
      min r.endDate c.endDate + 1 := by
    rw [min_def]; split_ifs <;> omega
  have e4 : (if (if r.endDate < c.endDate then r.endDate else c.endDate)
        = r.endDate then c.endDate else r.endDate) =
      max r.endDate c.endDate := by
    rw [max_def]; split_ifs <;> omega
  rw [e2, e1, e4, e3]

theorem size_le_findDateRangeEachDatesH (h : DateHeap) (sA eA : Nat) :
    DateHeap.size h ≤ DateHeap.size (findDateRangeEachDatesH h sA eA).1 :=
  (findDateRangeEachDatesH_frame h sA eA).1

theorem read_findDateRangeEachDatesH (h : DateHeap) (sA eA a : Nat)
    (ha : a < DateHeap.size h) :
    DateHeap.read (findDateRangeEachDatesH h sA eA).1 a = DateHeap.read h a :=
  (findDateRangeEachDatesH_frame h sA eA).2 a ha

theorem DateHeap.snd_alloc (h : DateHeap) (v : Int) :
    (DateHeap.alloc h v).2 = DateHeap.size h := rfl

theorem findOverlappingDatesH_frame (h : DateHeap) (rsA reA csA ceA : Nat) :
    ∀ a, a < DateHeap.size h →
      DateHeap.read (findOverlappingDatesH h rsA reA csA ceA).1 a = DateHeap.read h a := by
  intro a ha
  cases hin : isInRange (readRange h rsA reA) (readRange h csA ceA) with
  | false =>
    have hnot : (!(isInRange (readRange h rsA reA) (readRange h csA ceA))) = true := by
      rw [hin]; rfl
    simp only [findOverlappingDatesH, hnot, if_true]
  | true =>
    have hnot : (!(isInRange (readRange h rsA reA) (readRange h csA ceA))) = false := by
      rw [hin]; rfl
    simp only [findOverlappingDatesH, hnot, Bool.false_eq_true, if_false]
    rw [read_findDateRangeEachDatesH]
    · rw [DateHeap.read_alloc]
      · rw [DateHeap.read_alloc _ _ _ ha]
      · simp only [DateHeap.size_alloc, DateHeap.size_write, DateHeap.snd_alloc]
        omega
    · simp only [DateHeap.size_alloc, DateHeap.size_write, DateHeap.snd_alloc]
      omega

theorem findNonOverlappingDatesH_frame (h : DateHeap) (rsA reA csA ceA : Nat) :
    ∀ a, a < DateHeap.size h →
      DateHeap.read (findNonOverlappingDatesH h rsA reA csA ceA).1 a = DateHeap.read h a := by
  intro a ha
  cases hin : isInRange (readRange h rsA reA) (readRange h csA ceA) with
  | false =>
    have hnot : (!(isInRange (readRange h rsA reA) (readRange h csA ceA))) = true := by
      rw [hin]; rfl
    simp only [findNonOverlappingDatesH, hnot, if_true]
    rw [read_findDateRangeEachDatesH]
    · rw [read_findDateRangeEachDatesH _ _ _ _ ha]
    · exact Nat.lt_of_lt_of_le ha (size_le_findDateRangeEachDatesH _ _ _)
  | true =>
    have hnot : (!(isInRange (readRange h rsA reA) (readRange h csA ceA))) = false := by
      rw [hin]; rfl
    simp only [findNonOverlappingDatesH, hnot, Bool.false_eq_true, if_false]
    rw [read_findDateRangeEachDatesH]
    · rw [read_findDateRangeEachDatesH]
      · rw [DateHeap.read_write_ne]
        · rw [DateHeap.read_alloc]
          · rw [DateHeap.read_alloc]
            · rw [DateHeap.read_write_ne]
              · rw [DateHeap.read_alloc]
                · rw [DateHeap.read_alloc _ _ _ ha]
                · simp only [DateHeap.size_alloc, DateHeap.size_write, DateHeap.snd_alloc]
                  omega
              · simp only [DateHeap.size_alloc, DateHeap.size_write, DateHeap.snd_alloc]
                omega
            · simp only [DateHeap.size_alloc, DateHeap.size_write, DateHeap.snd_alloc]
              omega
          · simp only [DateHeap.size_alloc, DateHeap.size_write, DateHeap.snd_alloc]
            omega
        · simp only [DateHeap.size_alloc, DateHeap.size_write, DateHeap.snd_alloc]
          omega
      · simp only [DateHeap.size_alloc, DateHeap.size_write, DateHeap.snd_alloc]
        omega
    · refine Nat.lt_of_lt_of_le ?_ (size_le_findDateRangeEachDatesH _ _ _)
      simp only [DateHeap.size_alloc, DateHeap.size_write, DateHeap.snd_alloc]
      omega

/-! ### Claims -/

/-- C1: for every pair of well-formed ranges, `isInRange(reference, comparison)`
returns true if and only if the closed intervals `[reference.startDate,
reference.endDate]` and `[comparison.startDate, comparison.endDate]` have a
non-empty intersection: the three-way disjunction computed by `isInRange` is
equivalent to the standard closed-interval overlap test. -/
theorem spec_C1 (r c : DateRange) (hr : r.WellFormed) (hc : c.WellFormed) :
    isInRange r c = true ↔
      (Set.Icc r.startDate r.endDate ∩ Set.Icc c.startDate c.endDate).Nonempty := by
  rw [isInRange_iff_overlap r c hr hc]
  unfold DateRange.WellFormed at hr hc
  constructor
  · rintro ⟨h1, h2⟩
    refine ⟨max r.startDate c.startDate, ?_, ?_⟩ <;> rw [Set.mem_Icc] <;>
      constructor <;> omega
  · rintro ⟨x, hx1, hx2⟩
    rw [Set.mem_Icc] at hx1 hx2
    exact ⟨by omega, by omega⟩

/-- C1 witness: the ranges `[0,2]` and `[1,3]` instantiate the theorem. -/
theorem spec_C1_witness :
    isInRange ⟨0, 2⟩ ⟨1, 3⟩ = true ↔
      (Set.Icc (0 : Int) 2 ∩ Set.Icc 1 3).Nonempty :=
  spec_C1 ⟨0, 2⟩ ⟨1, 3⟩ (by decide) (by decide)

/-- C2: for well-formed ranges, if the ranges intersect then
`findOverlappingDates` returns the strictly ascending sequence of every day
from `max(reference.startDate, comparison.startDate)` to
`min(reference.endDate, comparison.endDate)` inclusive, of length equal to
the day difference between the bounds plus one; if they do not intersect it
returns the empty sequence. -/
theorem spec_C2 (r c : DateRange) (hr : r.WellFormed) (hc : c.WellFormed) :
    ((r.startDate ≤ c.endDate ∧ c.startDate ≤ r.endDate) →
      List.Pairwise (· < ·) (findOverlappingDates r c) ∧
      (∀ x : Int, x ∈ findOverlappingDates r c ↔
        max r.startDate c.startDate ≤ x ∧ x ≤ min r.endDate c.endDate) ∧
      (findOverlappingDates r c).length =
        (min r.endDate c.endDate - max r.startDate c.startDate).toNat + 1) ∧
    (¬ (r.startDate ≤ c.endDate ∧ c.startDate ≤ r.endDate) →
      findOverlappingDates r c = []) := by
  constructor
  · intro hint
    have hin : isInRange r c = true := (isInRange_iff_overlap r c hr hc).mpr hint
    rw [findOverlappingDates_of_inRange r c hin]
    have hb : max r.startDate c.startDate ≤ min r.endDate c.endDate := by
      unfold DateRange.WellFormed at hr hc
      omega
    refine ⟨pairwise_findDateRangeEachDates _, fun x => ?_, ?_⟩
    · rw [mem_findDateRangeEachDates]
    · rw [length_findDateRangeEachDates _ hb]
  · intro hnot
    have hin : isInRange r c = false := (isInRange_eq_false_iff r c hr hc).mpr hnot
    exact findOverlappingDates_of_notInRange r c hin

/-- C2 witness: the ranges `[0,2]` and `[1,3]` instantiate the theorem; their
overlap has length `min 2 3 - max 0 1 + 1 = 2`. -/
theorem spec_C2_witness :
    (findOverlappingDates ⟨0, 2⟩ ⟨1, 3⟩).length =
      (min (2 : Int) 3 - max (0 : Int) 1).toNat + 1 :=
  ((spec_C2 ⟨0, 2⟩ ⟨1, 3⟩ (by decide) (by decide)).1 (by decide)).2.2

/-- C3: for well-formed intersecting ranges, `findNonOverlappingDates` is the
concatenation of the lower block (from the earlier start date up to the day
before the later start date, empty when the start dates coincide) and the
upper block (from the day after the earlier end date up to the later end
date, empty when the end dates coincide); for identical ranges the result is
empty. -/
theorem spec_C3 (r c : DateRange) (hr : r.WellFormed) (hc : c.WellFormed)
    (hint : r.startDate ≤ c.endDate ∧ c.startDate ≤ r.endDate) :
    findNonOverlappingDates r c =
      findDateRangeEachDates
        ⟨min r.startDate c.startDate, max r.startDate c.startDate - 1⟩ ++
      findDateRangeEachDates
        ⟨min r.endDate c.endDate + 1, max r.endDate c.endDate⟩ ∧
    (∀ x : Int, x ∈ findNonOverlappingDates r c ↔
      (min r.startDate c.startDate ≤ x ∧ x < max r.startDate c.startDate) ∨
      (min r.endDate c.endDate < x ∧ x ≤ max r.endDate c.endDate)) ∧
    (r.startDate = c.startDate ∧ r.endDate = c.endDate →
      findNonOverlappingDates r c = []) := by
  have hin : isInRange r c = true := (isInRange_iff_overlap r c hr hc).mpr hint
  have heq := findNonOverlappingDates_of_inRange r c hin
  refine ⟨heq, fun x => ?_, fun hid => ?_⟩
  · rw [heq, List.mem_append, mem_findDateRangeEachDates, mem_findDateRangeEachDates]
    dsimp only
    omega
  · obtain ⟨h1, h2⟩ := hid
    rw [heq,
      findDateRangeEachDates_nil _
        (show (max r.startDate c.startDate - 1 : Int) < min r.startDate c.startDate by
          omega),
      findDateRangeEachDates_nil _
        (show (max r.endDate c.endDate : Int) < min r.endDate c.endDate + 1 by
          omega)]
    rfl

/-- C3 witness: the ranges `[0,2]` and `[1,3]` instantiate the theorem. -/
theorem spec_C3_witness :
    findNonOverlappingDates ⟨0, 2⟩ ⟨1, 3⟩ =
      findDateRangeEachDates ⟨min (0 : Int) 1, max (0 : Int) 1 - 1⟩ ++
      findDateRangeEachDates ⟨min (2 : Int) 3 + 1, max (2 : Int) 3⟩ :=
  (spec_C3 ⟨0, 2⟩ ⟨1, 3⟩ (by decide) (by decide) (by decide)).1

/-- C4: for well-formed ranges that do not intersect,
`findNonOverlappingDates` is exactly the full day enumeration of the
reference range followed by the full day enumeration of the comparison
range, in that positional order (not re-sorted); together they enumerate
every day of either range exactly once. -/
theorem spec_C4 (r c : DateRange) (hr : r.WellFormed) (hc : c.WellFormed)
    (hnot : ¬ (r.startDate ≤ c.endDate ∧ c.startDate ≤ r.endDate)) :
    findNonOverlappingDates r c =
      findDateRangeEachDates r ++ findDateRangeEachDates c ∧
    (findNonOverlappingDates r c).Nodup ∧
    (∀ x : Int, x ∈ findNonOverlappingDates r c ↔
      (r.startDate ≤ x ∧ x ≤ r.endDate) ∨ (c.startDate ≤ x ∧ x ≤ c.endDate)) := by
  have hin : isInRange r c = false := (isInRange_eq_false_iff r c hr hc).mpr hnot
  have heq := findNonOverlappingDates_of_notInRange r c hin
  refine ⟨heq, ?_, fun x => ?_⟩
  · rw [heq, List.nodup_append]
    refine ⟨nodup_findDateRangeEachDates r, nodup_findDateRangeEachDates c, ?_⟩
    intro x hx1 hx2
    rw [mem_findDateRangeEachDates] at hx1 hx2
    unfold DateRange.WellFormed at hr hc
    omega
  · rw [heq, List.mem_append, mem_findDateRangeEachDates, mem_findDateRangeEachDates]

/-- C4 witness: the disjoint ranges `[5,6]` and `[0,2]` (comparison earlier
than reference) instantiate the theorem. -/
theorem spec_C4_witness :
    findNonOverlappingDates ⟨5, 6⟩ ⟨0, 2⟩ =
      findDateRangeEachDates ⟨5, 6⟩ ++ findDateRangeEachDates ⟨0, 2⟩ :=
  (spec_C4 ⟨5, 6⟩ ⟨0, 2⟩ (by decide) (by decide) (by decide)).1

/-- C5: for well-formed intersecting ranges, the concatenation of
`findOverlappingDates` and `findNonOverlappingDates` contains every day of
the union of the two ranges exactly once and nothing else: the two results
partition the union. -/
theorem spec_C5 (r c : DateRange) (hr : r.WellFormed) (hc : c.WellFormed)
    (hint : r.startDate ≤ c.endDate ∧ c.startDate ≤ r.endDate) :
    ∀ x : Int,
      (findOverlappingDates r c ++ findNonOverlappingDates r c).count x =
        if (r.startDate ≤ x ∧ x ≤ r.endDate) ∨ (c.startDate ≤ x ∧ x ≤ c.endDate)
        then 1 else 0 := by
  intro x
  have hin : isInRange r c = true := (isInRange_iff_overlap r c hr hc).mpr hint
  rw [List.count_append, findOverlappingDates_of_inRange r c hin,
    findNonOverlappingDates_of_inRange r c hin, List.count_append,
    count_findDateRangeEachDates, count_findDateRangeEachDates,
    count_findDateRangeEachDates]
  dsimp only
  unfold DateRange.WellFormed at hr hc
  split_ifs <;> omega

/-- C5 witness: the ranges `[0,2]` and `[1,3]` instantiate the theorem at
the day `1`, which lies in both ranges and is counted exactly once. -/
theorem spec_C5_witness :
    (findOverlappingDates ⟨0, 2⟩ ⟨1, 3⟩ ++
        findNonOverlappingDates ⟨0, 2⟩ ⟨1, 3⟩).count 1 =
      if ((0 : Int) ≤ 1 ∧ (1 : Int) ≤ 2) ∨ ((1 : Int) ≤ 1 ∧ (1 : Int) ≤ 3)
      then 1 else 0 :=
  spec_C5 ⟨0, 2⟩ ⟨1, 3⟩ (by decide) (by decide) (by decide) 1

/-- C7: for well-formed ranges, `isInRange` is symmetric: despite the
asymmetric `isStartDateAndEndDateIncludeRange` disjunct, swapping the
reference and comparison arguments never changes the answer. -/
theorem spec_C7 (r c : DateRange) (hr : r.WellFormed) (hc : c.WellFormed) :
    isInRange r c = isInRange c r := by
  have h1 := isInRange_iff_overlap r c hr hc
  have h2 := isInRange_iff_overlap c r hc hr
  cases hx : isInRange r c with
  | true =>
    rw [hx] at h1
    have := h1.mp rfl
    exact (h2.mpr ⟨this.2, this.1⟩).symm
  | false =>
    cases hy : isInRange c r with
    | false => rfl
    | true =>
      rw [hy] at h2
      have := h2.mp rfl
      rw [hx] at h1
      cases h1.mpr ⟨this.2, this.1⟩

/-- C7 witness: swapping `[0,2]` and `[1,3]` leaves `isInRange` unchanged. -/
theorem spec_C7_witness :
    isInRange ⟨0, 2⟩ ⟨1, 3⟩ = isInRange ⟨1, 3⟩ ⟨0, 2⟩ :=
  spec_C7 ⟨0, 2⟩ ⟨1, 3⟩ (by decide) (by decide)

/-- C8: for well-formed ranges, the three-way disjunction computed by
`isInRange` equals the four-way disjunction that additionally includes
`isStartDateAndEndDateInRange`: the extra disjunct is absorbed because it is
the conjunction of the first two. -/
theorem spec_C8 (r c : DateRange) (hr : r.WellFormed) (hc : c.WellFormed) :
    isInRange r c =
      (isStartDateInRange r c || isEndDateInRange r c ||
        isStartDateAndEndDateIncludeRange r c || isStartDateAndEndDateInRange r c) := by
  unfold isInRange isStartDateAndEndDateInRange
  cases isStartDateInRange r c <;> cases isEndDateInRange r c <;>
    cases isStartDateAndEndDateIncludeRange r c <;> rfl

/-- C8 witness: the ranges `[0,2]` and `[1,3]` instantiate the theorem. -/
theorem spec_C8_witness :
    isInRange ⟨0, 2⟩ ⟨1, 3⟩ =
      (isStartDateInRange ⟨0, 2⟩ ⟨1, 3⟩ || isEndDateInRange ⟨0, 2⟩ ⟨1, 3⟩ ||
        isStartDateAndEndDateIncludeRange ⟨0, 2⟩ ⟨1, 3⟩ ||
        isStartDateAndEndDateInRange ⟨0, 2⟩ ⟨1, 3⟩) :=
  spec_C8 ⟨0, 2⟩ ⟨1, 3⟩ (by decide) (by decide)

/-- C10: well-formed ranges that merely touch at a single boundary day count
as intersecting: `isInRange` is true and `findOverlappingDates` returns
exactly the one-element sequence holding the shared day. -/
theorem spec_C10 (r c : DateRange) (hr : r.WellFormed) (hc : c.WellFormed) :
    (r.endDate = c.startDate →
      isInRange r c = true ∧ findOverlappingDates r c = [r.endDate]) ∧
    (r.startDate = c.endDate →
      isInRange r c = true ∧ findOverlappingDates r c = [r.startDate]) := by
  unfold DateRange.WellFormed at hr hc
  constructor
  · intro he
    have hin : isInRange r c = true :=
      (isInRange_iff_overlap r c hr hc).mpr ⟨by omega, by omega⟩
    refine ⟨hin, ?_⟩
    rw [findOverlappingDates_of_inRange r c hin]
    have e1 : max r.startDate c.startDate = r.endDate := by omega
    have e2 : min r.endDate c.endDate = r.endDate := by omega
    rw [e1, e2, findDateRangeEachDates_single]
  · intro he
    have hin : isInRange r c = true :=
      (isInRange_iff_overlap r c hr hc).mpr ⟨by omega, by omega⟩
    refine ⟨hin, ?_⟩
    rw [findOverlappingDates_of_inRange r c hin]
    have e1 : max r.startDate c.startDate = r.startDate := by omega
    have e2 : min r.endDate c.endDate = r.startDate := by omega
    rw [e1, e2, findDateRangeEachDates_single]

/-- C10 witness: `[0,2]` touches `[2,5]` at the single day `2`, and the
overlap is exactly `[2]`. -/
theorem spec_C10_witness :
    isInRange ⟨0, 2⟩ ⟨2, 5⟩ = true ∧ findOverlappingDates ⟨0, 2⟩ ⟨2, 5⟩ = [2] :=
  (spec_C10 ⟨0, 2⟩ ⟨2, 5⟩ (by decide) (by decide)).1 (by decide)

/-! ### The four validation causes in source order -/

/-- Cause 1 (src/src/index.ts:312): the argument itself, or either field, is
absent. -/
def causeMissing : Option RawDateRange → Bool
  | none => true
  | some r => r.startDate.isUndef || r.endDate.isUndef

/-- Cause 2 (src/src/index.ts:316): a field is null. -/
def causeNull : Option RawDateRange → Bool
  | none => false
  | some r => r.startDate.isNull || r.endDate.isNull

/-- Cause 3 (src/src/index.ts:320): a field is not a `Date` instance. -/
def causeNotDate : Option RawDateRange → Bool
  | none => false
  | some r => !(r.startDate.isDate && r.endDate.isDate)

/-- Cause 4 (src/src/index.ts:324): `startDate` strictly after `endDate`. -/
def causeInverted : Option RawDateRange → Bool
  | none => false
  | some r => decide (r.startDate.time > r.endDate.time)

theorem checkDateRangeFormat_eq (dr : Option RawDateRange) :
    checkDateRangeFormat dr =
      if causeMissing dr then Except.error msgMustBeDefined
      else if causeNull dr then Except.error msgCannotBeNull
      else if causeNotDate dr then Except.error msgMustBeDate
      else if causeInverted dr then Except.error msgStartAfterEnd
      else Except.ok () := by
  rcases dr with _ | ⟨s, e⟩
  · simp [checkDateRangeFormat, causeMissing]
  · rcases s with _ | _ | _ | st <;> rcases e with _ | _ | _ | et <;>
      simp [checkDateRangeFormat, causeMissing, causeNull, causeNotDate,
        causeInverted, JSDateField.isUndef, JSDateField.isNull,
        JSDateField.isDate, JSDateField.time]

/-- C6: every public predicate and extraction function fails with
`DateRangeCheckerError` exactly when either argument is malformed — the four
causes are checked in source order, each with its own message, and the error
is the one `checkDateRangeFormat` raises for the offending argument
(reference checked first) — and a call with two well-formed, correctly
ordered ranges never fails. -/
theorem spec_C6 :
    (∀ dr, checkDateRangeFormat dr = Except.ok () ↔ ValidRaw dr) ∧
    (∀ dr, checkDateRangeFormat dr =
      if causeMissing dr then Except.error msgMustBeDefined
      else if causeNull dr then Except.error msgCannotBeNull
      else if causeNotDate dr then Except.error msgMustBeDate
      else if causeInverted dr then Except.error msgStartAfterEnd
      else Except.ok ()) ∧
    (∀ a b, (∃ v, isInRangeE a b = Except.ok v) ↔ ValidRaw a ∧ ValidRaw b) ∧
    (∀ a b, (∃ v, isStartDateInRangeE a b = Except.ok v) ↔ ValidRaw a ∧ ValidRaw b) ∧
    (∀ a b, (∃ v, isEndDateInRangeE a b = Except.ok v) ↔ ValidRaw a ∧ ValidRaw b) ∧
    (∀ a b, (∃ v, isStartDateAndEndDateInRangeE a b = Except.ok v) ↔
      ValidRaw a ∧ ValidRaw b) ∧
    (∀ a b, (∃ v, isStartDateAndEndDateIncludeRangeE a b = Except.ok v) ↔
      ValidRaw a ∧ ValidRaw b) ∧
    (∀ a b, (∃ v, findOverlappingDatesE a b = Except.ok v) ↔ ValidRaw a ∧ ValidRaw b) ∧
    (∀ a b, (∃ v, findNonOverlappingDatesE a b = Except.ok v) ↔
      ValidRaw a ∧ ValidRaw b) ∧
    (∀ a b m, isInRangeE a b = Except.error m →
      checkDateRangeFormat a = Except.error m ∨
        (checkDateRangeFormat a = Except.ok () ∧ checkDateRangeFormat b = Except.error m)) ∧
    (∀ a b m, isStartDateInRangeE a b = Except.error m →
      checkDateRangeFormat a = Except.error m ∨
        (checkDateRangeFormat a = Except.ok () ∧ checkDateRangeFormat b = Except.error m)) ∧
    (∀ a b m, isEndDateInRangeE a b = Except.error m →
      checkDateRangeFormat a = Except.error m ∨
        (checkDateRangeFormat a = Except.ok () ∧ checkDateRangeFormat b = Except.error m)) ∧
    (∀ a b m, isStartDateAndEndDateInRangeE a b = Except.error m →
      checkDateRangeFormat a = Except.error m ∨
        (checkDateRangeFormat a = Except.ok () ∧ checkDateRangeFormat b = Except.error m)) ∧
    (∀ a b m, isStartDateAndEndDateIncludeRangeE a b = Except.error m →
      checkDateRangeFormat a = Except.error m ∨
        (checkDateRangeFormat a = Except.ok () ∧ checkDateRangeFormat b = Except.error m)) ∧
    (∀ a b m, findOverlappingDatesE a b = Except.error m →
      checkDateRangeFormat a = Except.error m ∨
        (checkDateRangeFormat a = Except.ok () ∧ checkDateRangeFormat b = Except.error m)) ∧
    (∀ a b m, findNonOverlappingDatesE a b = Except.error m →
      checkDateRangeFormat a = Except.error m ∨
        (checkDateRangeFormat a = Except.ok () ∧ checkDateRangeFormat b = Except.error m)) :=
  ⟨checkDateRangeFormat_ok_iff,
   checkDateRangeFormat_eq,
   fun a b => validateThen_ok_iff a b _,
   fun a b => validateThen_ok_iff a b _,
   fun a b => validateThen_ok_iff a b _,
   fun a b => validateThen_ok_iff a b _,
   fun a b => validateThen_ok_iff a b _,
   fun a b => validateThen_ok_iff a b _,
   fun a b => validateThen_ok_iff a b _,
   fun a b m h => validateThen_error a b _ m h,
   fun a b m h => validateThen_error a b _ m h,
   fun a b m h => validateThen_error a b _ m h,
   fun a b m h => validateThen_error a b _ m h,
   fun a b m h => validateThen_error a b _ m h,
   fun a b m h => validateThen_error a b _ m h,
   fun a b m h => validateThen_error a b _ m h⟩

/-- C6 witness: an absent reference argument makes `isInRangeE` fail with the
"must be defined" message; an inverted comparison range makes it fail with
the "startDate cannot be after endDate" message; two well-formed ranges
succeed. -/
theorem spec_C6_witness :
    (∃ v, isInRangeE (some ⟨.date 0, .date 2⟩) (some ⟨.date 1, .date 3⟩) =
      Except.ok v) ∧
    (isInRangeE none (some ⟨.date 1, .date 3⟩) = Except.error msgMustBeDefined →
      checkDateRangeFormat none = Except.error msgMustBeDefined ∨
        (checkDateRangeFormat none = Except.ok () ∧
          checkDateRangeFormat (some ⟨.date 1, .date 3⟩) =
            Except.error msgMustBeDefined)) := by
  constructor
  · exact (spec_C6.2.2.1 (some ⟨.date 0, .date 2⟩) (some ⟨.date 1, .date 3⟩)).mpr
      (by constructor <;> decide)
  · exact spec_C6.2.2.2.2.2.2.2.2.2.1 none (some ⟨.date 1, .date 3⟩) msgMustBeDefined

/-- C9: no public function mutates its input `Date` objects: on the heap
model, any cell that existed before a call to `findOverlappingDates`,
`findNonOverlappingDates` or `findDateRangeEachDates` — in particular the
four cells holding the two ranges' bounds — holds the same value after the
call, because every `setDate` adjustment is applied to a freshly allocated
`new Date(...)` copy; the predicates do not touch the heap at all. -/
theorem spec_C9 (h : DateHeap) (rsA reA csA ceA : Nat)
    (hrs : rsA < DateHeap.size h) (hre : reA < DateHeap.size h)
    (hcs : csA < DateHeap.size h) (hce : ceA < DateHeap.size h)
    (hwfr : DateHeap.read h rsA ≤ DateHeap.read h reA)
    (hwfc : DateHeap.read h csA ≤ DateHeap.read h ceA) :
    (∀ a, a < DateHeap.size h →
      DateHeap.read (findOverlappingDatesH h rsA reA csA ceA).1 a =
        DateHeap.read h a) ∧
    (∀ a, a < DateHeap.size h →
      DateHeap.read (findNonOverlappingDatesH h rsA reA csA ceA).1 a =
        DateHeap.read h a) ∧
    (∀ a, a < DateHeap.size h →
      DateHeap.read (findDateRangeEachDatesH h rsA reA).1 a =
        DateHeap.read h a) ∧
    (isInRangeH h rsA reA csA ceA).1 = h :=
  ⟨findOverlappingDatesH_frame h rsA reA csA ceA,
   findNonOverlappingDatesH_frame h rsA reA csA ceA,
   (findDateRangeEachDatesH_frame h rsA reA).2,
   rfl⟩

/-- C9 witness: on a four-cell heap holding the ranges `[0,5]` and `[2,9]`,
the cells of both ranges are unchanged by the two extraction functions. -/
theorem spec_C9_witness :
    DateHeap.read (findOverlappingDatesH ([0, 5, 2, 9] : DateHeap) 0 1 2 3).1 0 =
      DateHeap.read ([0, 5, 2, 9] : DateHeap) 0 ∧
    DateHeap.read (findNonOverlappingDatesH ([0, 5, 2, 9] : DateHeap) 0 1 2 3).1 2 =
      DateHeap.read ([0, 5, 2, 9] : DateHeap) 2 :=
  ⟨(spec_C9 ([0, 5, 2, 9] : DateHeap) 0 1 2 3 (by decide) (by decide) (by decide)
      (by decide) (by decide) (by decide)).1 0 (by decide),
   (spec_C9 ([0, 5, 2, 9] : DateHeap) 0 1 2 3 (by decide) (by decide) (by decide)
      (by decide) (by decide) (by decide)).2.1 2 (by decide)⟩

/-! ### The heap model computes the same day values as the pure model -/

theorem DateHeap.read_alloc_self (h : DateHeap) (v : Int) :
    DateHeap.read (DateHeap.alloc h v).1 (DateHeap.alloc h v).2 = v := by
  show List.getD (h ++ [v]) (List.length h) 0 = v
  rw [List.getD_eq_getElem?_getD, List.getElem?_append_right (Nat.le_refl _)]
  simp

theorem DateHeap.read_write_self (h : DateHeap) (a : Nat) (v : Int)
    (ha : a < DateHeap.size h) :
    DateHeap.read (DateHeap.write h a v) a = v := by
  show List.getD (List.set h a v) a 0 = v
  have ha2 : a < List.length h := ha
  rw [List.getD_eq_getElem?_getD, List.getElem?_set_self]
  · simp [ha2]
  · exact ha2

theorem eachDatesLoopH_values (n : Nat) (h : DateHeap) (cur endA : Nat)
    (hne : endA ≠ cur) (hcur : cur < DateHeap.size h) (hend : endA < DateHeap.size h) :
    List.map (fun a => DateHeap.read (eachDatesLoopH n h cur endA).1 a)
        (eachDatesLoopH n h cur endA).2 =
      eachDatesLoop (DateHeap.read h cur) (DateHeap.read h endA) n := by
  induction n generalizing h with
  | zero => rfl
  | succ n ih =>
    by_cases hc : DateHeap.read h cur ≤ DateHeap.read h endA
    · simp only [eachDatesLoopH, if_pos hc, eachDatesLoop]
      set p1 := DateHeap.alloc h (DateHeap.read h cur) with hp1
      set h2 := DateHeap.write p1.1 cur (DateHeap.read p1.1 cur + 1) with hh2
      set q := eachDatesLoopH n h2 cur endA with hq
      have hp2 : p1.2 = DateHeap.size h := by
        rw [hp1, DateHeap.snd_alloc]
      have hs1 : DateHeap.size p1.1 = DateHeap.size h + 1 := by
        rw [hp1]
        exact DateHeap.size_alloc h _
      have hszh2 : DateHeap.size h2 = DateHeap.size h + 1 := by
        rw [hh2, DateHeap.size_write, hs1]
      have hr1cur : DateHeap.read p1.1 cur = DateHeap.read h cur := by
        rw [hp1]
        exact DateHeap.read_alloc h _ cur hcur
      have hr2cur : DateHeap.read h2 cur = DateHeap.read h cur + 1 := by
        rw [hh2, DateHeap.read_write_self _ _ _ (by omega), hr1cur]
      have hr2end : DateHeap.read h2 endA = DateHeap.read h endA := by
        rw [hh2, DateHeap.read_write_ne _ _ _ _ hne, hp1,
          DateHeap.read_alloc h _ endA hend]
      have hself : DateHeap.read p1.1 p1.2 = DateHeap.read h cur := by
        rw [hp1]
        exact DateHeap.read_alloc_self h _
      simp only [List.map_cons]
      congr 1
      · have hfr := (eachDatesLoopH_frame n h2 cur endA).2 p1.2 (by omega) (by omega)
        rw [← hq] at hfr
        rw [hfr, hh2, DateHeap.read_write_ne _ _ _ _ (by omega), hself]
      · have ihs := ih h2 (by omega) (by omega)
        rw [← hq, hr2cur, hr2end] at ihs
        exact ihs
    · simp only [eachDatesLoopH, if_neg hc, eachDatesLoop, List.map_nil]

/-- The heap-level day enumeration allocates cells holding exactly the days
the pure `findDateRangeEachDates` lists for the range read from the heap. -/
theorem findDateRangeEachDatesH_values (h : DateHeap) (startA endA : Nat)
    (hs : startA < DateHeap.size h) (he : endA < DateHeap.size h) :
    List.map (fun a => DateHeap.read (findDateRangeEachDatesH h startA endA).1 a)
        (findDateRangeEachDatesH h startA endA).2 =
      findDateRangeEachDates (readRange h startA endA) := by
  simp only [findDateRangeEachDatesH, findDateRangeEachDates, readRange]
  set p := DateHeap.alloc h (DateHeap.read h startA) with hp
  have hp2 : p.2 = DateHeap.size h := by
    rw [hp, DateHeap.snd_alloc]
  have hs1 : DateHeap.size p.1 = DateHeap.size h + 1 := by
    rw [hp]
    exact DateHeap.size_alloc h _
  have hv := eachDatesLoopH_values
    ((DateHeap.read h endA + 1 - DateHeap.read h startA).toNat) p.1 p.2 endA
    (by omega) (by omega) (by omega)
  have hrcur : DateHeap.read p.1 p.2 = DateHeap.read h startA := by
    rw [hp]
    exact DateHeap.read_alloc_self h _
  have hrend : DateHeap.read p.1 endA = DateHeap.read h endA := by
    rw [hp]
    exact DateHeap.read_alloc h _ endA he
  rw [hrcur, hrend] at hv
  exact hv
